import Mathlib

/-!
Verification development for the resync data-access layer
(connection pool, query pipeline, diff engine, change-feed listener).

The Python sources under `resync/` are shallowly embedded below:
pure functions become Lean functions, the stateful connection pool
becomes explicit state passing over `PoolState`, fallible code returns
`Except`, and the listener's `async` supervision loop becomes a
fuel-indexed recursion over a scripted environment.  External
collaborators (the rethinkdb driver, the `dictdiffer` library, the
record-mapping layer) are modelled from the specification's contracts
for them, as noted on each definition.
-/

/-! ## Diff engine (`resync/diff.py`) -/

/-- A JSON-like document value, the payload type of record snapshots
delivered by the database's change-feed protocol. -/
inductive JValue where
  | null
  | bool (b : Bool)
  | int (n : Int)
  | str (s : String)
  | arr (items : List JValue)
  | obj (fields : List (String × JValue))

/-- One step of a key path inside a nested document: a mapping key or a
sequence index. -/
inductive PathSeg where
  | key (k : String)
  | idx (i : Nat)

/-- `DiffObject` from `resync/diff.py`: one structural edit,
`(change_type, key_path, (old_value, new_value))`.  The value tuple uses
`Option` so that `add`/`remove` edits can leave one side absent. -/
structure DiffObject where
  change_type : String
  key_path : List PathSeg
  value_tuple : Option JValue × Option JValue

/-- A record snapshot: a document, i.e. a mapping from field name to value.
Python dictionaries cannot contain duplicate keys; the association-list
model below therefore gives first-occurrence-wins lookup semantics and
iterates each key once. -/
abbrev Record := List (String × JValue)

/-- `sizeOf` of a filtered list is bounded by `sizeOf` of the list
(used for the termination measure of the diff recursion). -/
theorem sizeOf_filter_le {α : Type} [SizeOf α] (p : α → Bool) (l : List α) :
    sizeOf (l.filter p) ≤ sizeOf l := by
  induction l with
  | nil => simp
  | cons x xs ih =>
    simp only [List.filter]
    cases p x <;> simp <;> omega

/-- A value found by association-list lookup is structurally smaller
than the list (used for the termination measure of the diff recursion). -/
theorem sizeOf_lookup_lt {k : String} {w : JValue} :
    (g : List (String × JValue)) → List.lookup k g = some w → sizeOf w < sizeOf g
  | (a, b) :: rest, h => by
    rw [List.lookup] at h
    split at h
    · cases h; simp; omega
    · have := sizeOf_lookup_lt rest h
      simp; omega

/-- Drop all but the first occurrence of each key from an association
list (dictionary iteration never repeats a key). -/
def dedupFirst : List (String × JValue) → List (String × JValue)
  | [] => []
  | e :: rest => e :: dedupFirst (rest.filter (fun x => !(x.1 == e.1)))
termination_by l => l.length
decreasing_by
  simp only [List.length_cons]
  exact Nat.lt_succ_of_le (List.length_filter_le _ _)

/-- Modelled from the spec: the `add` edits emitted by the external
`dictdiffer` dependency — one `add` per key present in `g` but not in
`f`, carrying the new value. -/
def objAdds (path : List PathSeg) (f g : List (String × JValue)) : List DiffObject :=
  (dedupFirst (g.filter (fun e => (List.lookup e.1 f).isNone))).map
    (fun e => ⟨"add", path ++ [.key e.1], (none, some e.2)⟩)

mutual

/-- Modelled from the spec: the structural diff computed by the external
`dictdiffer` dependency (`dictdiffer.diff`), per §4.3 of the design:
nested mappings and sequences are traversed recursively, scalar leaves
are compared by equality, and each edit names its kind (`add` / `remove`
/ `change`), the key path, and the before/after values. -/
def jvalDiff (path : List PathSeg) (a b : JValue) : List DiffObject :=
  match a, b with
  | .obj f1, .obj f2 => objChanges path f1 f2 ++ objAdds path f1 f2
  | .arr a1, .arr a2 => arrDiff path 0 a1 a2
  | .null, .null => []
  | .bool a, .bool b => if a == b then [] else [⟨"change", path, (some (.bool a), some (.bool b))⟩]
  | .int a, .int b => if a == b then [] else [⟨"change", path, (some (.int a), some (.int b))⟩]
  | .str a, .str b => if a == b then [] else [⟨"change", path, (some (.str a), some (.str b))⟩]
  | a, b => [⟨"change", path, (some a, some b)⟩]
termination_by sizeOf a + sizeOf b
decreasing_by
  all_goals simp
  all_goals omega

/-- Modelled from the spec: element-wise diff of two sequences at
matching indices, with `add`/`remove` edits for length mismatches. -/
def arrDiff (path : List PathSeg) (i : Nat) (a b : List JValue) : List DiffObject :=
  match a, b with
  | [], [] => []
  | [], y :: ys => ⟨"add", path ++ [.idx i], (none, some y)⟩ :: arrDiff path (i + 1) [] ys
  | x :: xs, [] => ⟨"remove", path ++ [.idx i], (some x, none)⟩ :: arrDiff path (i + 1) xs []
  | x :: xs, y :: ys => jvalDiff (path ++ [.idx i]) x y ++ arrDiff path (i + 1) xs ys
termination_by sizeOf a + sizeOf b
decreasing_by
  all_goals simp
  all_goals omega

/-- Modelled from the spec: for each key of the first mapping (visited
once, first occurrence wins), emit a `remove` edit when the key is
absent from the second mapping, otherwise recursively diff the two
values at that key. -/
def objChanges (path : List PathSeg) (f g : List (String × JValue)) : List DiffObject :=
  match f with
  | [] => []
  | (k, v) :: rest =>
    (match hw : List.lookup k g with
     | none => [⟨"remove", path ++ [.key k], (some v, none)⟩]
     | some w => jvalDiff (path ++ [.key k]) v w)
    ++ objChanges path (rest.filter (fun x => !(x.1 == k))) g
termination_by sizeOf f + sizeOf g
decreasing_by
  · have := sizeOf_lookup_lt g hw
    simp; omega
  · have := sizeOf_filter_le (fun x : String × JValue => !(x.1 == k)) rest
    simp; omega

end

/-- The full diff of two record snapshots, as the external `dictdiffer`
dependency computes it on the two top-level dictionaries. -/
def recordDiff (old new : Record) : List DiffObject :=
  objChanges [] old new ++ objAdds [] old new

/-- A change event from the database: a dictionary with keys `old_val`
and `new_val`, either of which may be `None`. -/
structure Changeset where
  old_val : Option Record
  new_val : Option Record

/-- The internal diff representation of `resync/diff.py`: the `create`
and `delete` singleton sentinels, or a list of `DiffObject` edits. -/
inductive Diff where
  | create
  | delete
  | edits (l : List DiffObject)

/-- `get_diff_from_changeset` from `resync/diff.py`: `old is None` gives
the created sentinel, otherwise `new is None` gives the deleted
sentinel, otherwise the `dictdiffer` edit list. -/
def get_diff_from_changeset (changeset : Changeset) : Diff :=
  match changeset.old_val with
  | none => .create
  | some old =>
    match changeset.new_val with
    | none => .delete
    | some new => .edits (recordDiff old new)

/-- Looking up the key of a list member succeeds. -/
theorem lookup_isSome_of_mem {k : String} {v : JValue} :
    (f : List (String × JValue)) → (k, v) ∈ f → (List.lookup k f).isSome
  | (a, b) :: rest, h => by
    rw [List.lookup]
    rcases List.mem_cons.mp h with h1 | h1
    · cases h1; simp
    · split
      · simp
      · exact lookup_isSome_of_mem rest h1

/-- Association-list lookup on a cons cell, stated with an `if`. -/
theorem lookup_cons {a k : String} {b : JValue} {es : List (String × JValue)} :
    List.lookup a ((k, b) :: es) = if a = k then some b else List.lookup a es := by
  by_cases h : a = k
  · subst h; rw [List.lookup]; simp
  · rw [List.lookup]
    have hb : (a == k) = false := beq_eq_false_iff_ne.mpr h
    simp [hb, h]

/-- Filtering out the entries with key `k` makes lookup of `k` fail. -/
theorem lookup_filter_self {k : String} :
    (l : List (String × JValue)) →
      List.lookup k (l.filter (fun x => !(x.1 == k))) = none
  | [] => rfl
  | (a, b) :: rest => by
    rw [List.filter_cons]
    by_cases hak : a = k
    · subst hak
      simpa using lookup_filter_self rest
    · have hb : (a == k) = false := beq_eq_false_iff_ne.mpr hak
      simp only [hb, Bool.not_false, if_true, eq_self_iff_true]
      rw [lookup_cons, if_neg (fun h => hak h.symm)]
      exact lookup_filter_self rest

/-- Filtering out the entries with key `k` does not change lookup of a
different key. -/
theorem lookup_filter_ne {k q : String} (hqk : q ≠ k) :
    (l : List (String × JValue)) →
      List.lookup q (l.filter (fun x => !(x.1 == k))) = List.lookup q l
  | [] => rfl
  | (a, b) :: rest => by
    rw [List.filter_cons]
    by_cases hak : a = k
    · subst hak
      rw [lookup_cons, if_neg hqk]
      simpa using lookup_filter_ne hqk rest
    · have hb : (a == k) = false := beq_eq_false_iff_ne.mpr hak
      simp only [hb, Bool.not_false, if_true, eq_self_iff_true]
      rw [lookup_cons, lookup_cons]
      by_cases hqa : q = a
      · simp [hqa]
      · rw [if_neg hqa, if_neg hqa]
        exact lookup_filter_ne hqk rest

/-- The `dictdiffer` model emits no `add` edits when both mappings are
the same list. -/
theorem objAdds_self (path : List PathSeg) (f : List (String × JValue)) :
    objAdds path f f = [] := by
  rw [objAdds]
  have hnil : f.filter (fun e => (List.lookup e.1 f).isNone) = [] := by
    rw [List.filter_eq_nil_iff]
    intro ⟨k, v⟩ hm
    simpa using lookup_isSome_of_mem f hm
  rw [hnil, dedupFirst]
  rfl

/-- Auxiliary strong induction: the diff model returns no edits when the
two sides are identical (for `objChanges`, when the second mapping
agrees with the first on all of the first's keys). -/
theorem diff_refl_aux : (n : Nat) →
    (∀ (v : JValue), sizeOf v ≤ n → ∀ path, jvalDiff path v v = []) ∧
    (∀ (l : List JValue), sizeOf l ≤ n → ∀ path i, arrDiff path i l l = []) ∧
    (∀ (f g : List (String × JValue)), sizeOf f ≤ n →
      (∀ k, (List.lookup k f).isSome → List.lookup k g = List.lookup k f) →
      ∀ path, objChanges path f g = [])
  | 0 => by
    refine ⟨fun v hv => ?_, fun l hl => ?_, fun f g hf _ => ?_⟩
    · cases v <;> simp at hv
    · cases l
      · intro path i; rw [arrDiff]
      · simp at hl
    · cases f
      · intro path; rw [objChanges]
      · simp at hf
  | n + 1 => by
    obtain ⟨ihv, ihl, ihf⟩ := diff_refl_aux n
    refine ⟨fun v hv path => ?_, fun l hl path i => ?_, fun f g hf hagree path => ?_⟩
    · match v with
      | .null => rw [jvalDiff]
      | .bool b => rw [jvalDiff]; simp
      | .int m => rw [jvalDiff]; simp
      | .str s => rw [jvalDiff]; simp
      | .arr items =>
        rw [jvalDiff]
        have : sizeOf items ≤ n := by simp at hv; omega
        exact ihl items this path 0
      | .obj fields =>
        rw [jvalDiff]
        have hsz : sizeOf fields ≤ n := by simp at hv; omega
        rw [ihf fields fields hsz (fun _ _ => rfl) path, objAdds_self]
        rfl
    · match l with
      | [] => rw [arrDiff]
      | x :: xs =>
        rw [arrDiff]
        have hx : sizeOf x ≤ n := by simp at hl; omega
        have hxs : sizeOf xs ≤ n := by simp at hl; omega
        rw [ihv x hx _, ihl xs hxs path (i + 1)]
        rfl
    · match f with
      | [] => rw [objChanges]
      | (k, v) :: rest =>
        rw [objChanges]
        have hlk : List.lookup k ((k, v) :: rest) = some v := by
          rw [lookup_cons, if_pos rfl]
        have hlg : List.lookup k g = some v := by
          rw [hagree k (by rw [hlk]; rfl)]; exact hlk
        have hv : sizeOf v ≤ n := by simp at hf; omega
        have hrest : sizeOf (rest.filter (fun x => !(x.1 == k))) ≤ n := by
          have := sizeOf_filter_le (fun x : String × JValue => !(x.1 == k)) rest
          simp at hf; omega
        have hagree2 : ∀ q, (List.lookup q (rest.filter (fun x => !(x.1 == k)))).isSome →
            List.lookup q g = List.lookup q (rest.filter (fun x => !(x.1 == k))) := by
          intro q hq
          by_cases hqk : q = k
          · subst hqk
            rw [lookup_filter_self rest] at hq
            simp at hq
          · rw [lookup_filter_ne hqk rest]
            have hqf : List.lookup q ((k, v) :: rest) = List.lookup q rest := by
              rw [lookup_cons, if_neg hqk]
            rw [← hqf]
            refine hagree q ?_
            rw [hqf, ← lookup_filter_ne hqk rest]
            exact hq
        have htail := ihf _ g hrest hagree2 path
        split
        · next hnone => rw [hlg] at hnone; cases hnone
        · next w hsome =>
          rw [hlg] at hsome
          cases hsome
          rw [ihv v hv _, htail]
          rfl

/-- Reflexivity of the diff model: diffing a value against itself
produces no edits. -/
theorem jvalDiff_refl (v : JValue) (path : List PathSeg) : jvalDiff path v v = [] :=
  (diff_refl_aux (sizeOf v)).1 v (Nat.le_refl _) path

/-- Diffing a record snapshot against itself produces the empty edit
sequence. -/
theorem recordDiff_refl (r : Record) : recordDiff r r = [] := by
  rw [recordDiff, objAdds_self,
    (diff_refl_aux (sizeOf r)).2.2 r r (Nat.le_refl _) (fun _ _ => rfl) []]
  rfl

/-- C3: For every change event, an absent old snapshot yields the
created sentinel, an absent new snapshot yields the deleted sentinel,
and a pair of identical snapshots (no field differences) yields an empty
edit sequence. -/
theorem diff_sentinels_and_empty :
    (∀ new, get_diff_from_changeset ⟨none, new⟩ = .create) ∧
    (∀ old, get_diff_from_changeset ⟨some old, none⟩ = .delete) ∧
    (∀ r, get_diff_from_changeset ⟨some r, some r⟩ = .edits []) := by
  refine ⟨fun new => rfl, fun old => rfl, fun r => ?_⟩
  show Diff.edits (recordDiff r r) = Diff.edits []
  rw [recordDiff_refl]

/-! ## Change-feed result transformation (`resync/queryset.py`, `AsyncChangeFeed`) -/

/-- `AsyncChangeFeed.transform_query_result` from `resync/queryset.py`:
computes the diff of the change object, picks `old_val` when the diff is
the deleted sentinel and `new_val` otherwise, and feeds the chosen
snapshot to the record-mapping layer's `from_db` (an external
collaborator, passed here as the parameter `from_db`). -/
def AsyncChangeFeed.transform_query_result {α : Type} (from_db : Option Record → α)
    (change_obj : Changeset) : α × Diff :=
  let diff := get_diff_from_changeset change_obj
  let model_data := match diff with
    | .delete => change_obj.old_val
    | _ => change_obj.new_val
  (from_db model_data, diff)

/-- C8: the record delivered to the callback is built from the event's
new snapshot, except when the computed diff is the deleted sentinel
(old present, new absent), in which case it is built from the old
snapshot. -/
theorem transform_query_result_record_choice {α : Type} (from_db : Option Record → α) :
    (∀ old, AsyncChangeFeed.transform_query_result from_db ⟨some old, none⟩ =
      (from_db (some old), .delete)) ∧
    (∀ old new, AsyncChangeFeed.transform_query_result from_db ⟨some old, some new⟩ =
      (from_db (some new), .edits (recordDiff old new))) ∧
    (∀ new, AsyncChangeFeed.transform_query_result from_db ⟨none, new⟩ =
      (from_db new, .create)) :=
  ⟨fun _ => rfl, fun _ _ => rfl, fun _ => rfl⟩

/-! ## Connection pool (`resync/connection.py`, `ConnectionPool`) -/

/-- The downstream driver contract (§6): connections are identified by
`Nat` ids; `isOpen` models `Connection.is_open()`.  `Connection.close()`
is modelled by appending the id to the pool state's close log — close
failures are swallowed by every caller in the source (`try`/`except`
around `conn.close()`), so a failing close is indistinguishable from a
successful one except for the log entry. -/
structure DriverEnv where
  isOpen : Nat → Bool

/-- Errors raised by the pool: the `assert` in
`ConnectionPool._check_config` (the spec's `ConfigurationError`) and the
`KeyError` raised by `WeakSet.remove` on an unregistered connection. -/
inductive PoolError where
  | configurationError
  | keyError
deriving DecidableEq, Repr

/-- State of `ConnectionPool`: `_config_dict` (opaque payload), the
free-list `_queue` (an asyncio FIFO queue: `get_nowait` pops the front,
`put_nowait` appends at the back), the `_outstanding_connections`
weak set (modelled as a duplicate-free list; entries vanish only by
garbage collection, which no pool operation performs), a fresh-id
supply modelling `r.connect` creating a new driver connection, and the
log of `close()` invocations. -/
structure PoolState where
  config : Option Nat
  queue : List Nat
  outstanding : List Nat
  nextConn : Nat
  closes : List Nat
deriving DecidableEq, Repr

/-- `WeakSet.add`: insert without duplicating. -/
def addSet (c : Nat) (l : List Nat) : List Nat :=
  if c ∈ l then l else l ++ [c]

/-- The `while True` loop of `ConnectionPool.get_conn`: pop connections
from the free list one at a time; a closed connection is closed (close
errors ignored) and the loop retries; stop at the first open connection
or when the queue raises `QueueEmpty`.  Returns the connection found (if
any), the remaining queue, and the list of close invocations made. -/
def drainLoop (env : DriverEnv) : List Nat → Option Nat × List Nat × List Nat
  | [] => (none, [], [])
  | c :: rest =>
    if env.isOpen c then (some c, rest, [])
    else
      let (r, q, cl) := drainLoop env rest
      (r, q, c :: cl)

/-- `ConnectionPool.get_conn`: assert configuration is present (else the
spec's `ConfigurationError`, leaving the state untouched), pop until an
open connection is found, open a fresh connection via `r.connect` when
the free list is exhausted, and register the result in the outstanding
set. -/
def PoolState.get_conn (s : PoolState) (env : DriverEnv) : Except PoolError Nat × PoolState :=
  match s.config with
  | none => (.error .configurationError, s)
  | some _ =>
    match drainLoop env s.queue with
    | (some c, rest, closed) =>
      (.ok c,
        { s with
          queue := rest
          outstanding := addSet c s.outstanding
          closes := s.closes ++ closed })
    | (none, _, closed) =>
      (.ok s.nextConn,
        { s with
          queue := []
          nextConn := s.nextConn + 1
          outstanding := addSet s.nextConn s.outstanding
          closes := s.closes ++ closed })

/-- `ConnectionPool.put_conn`: `put_nowait` appends the connection to
the free list, then `WeakSet.remove` deletes it from the outstanding
set — raising `KeyError` (after the queue append has already happened)
when the connection is not registered. -/
def PoolState.put_conn (s : PoolState) (c : Nat) : Except PoolError Unit × PoolState :=
  if c ∈ s.outstanding then
    (.ok (), { s with queue := s.queue ++ [c], outstanding := s.outstanding.erase c })
  else
    (.error .keyError, { s with queue := s.queue ++ [c] })

/-- `ConnectionPool.set_config`. -/
def PoolState.set_config (s : PoolState) (config : Nat) : PoolState :=
  { s with config := some config }

/-- `ConnectionPool.teardown`: drain the free list into the outstanding
set (`get_nowait` until `QueueEmpty`, adding each connection), then
close every member of the outstanding set, swallowing per-connection
close failures.  Note the source never removes entries from the
outstanding weak set here. -/
def PoolState.teardown (s : PoolState) : PoolState :=
  let drained := s.queue.foldl (fun acc c => addSet c acc) s.outstanding
  { s with queue := [], outstanding := drained, closes := s.closes ++ drained }

/-- An element is a member of the set it was just added to. -/
theorem mem_addSet_self (c : Nat) (l : List Nat) : c ∈ addSet c l := by
  rw [addSet]
  split
  · assumption
  · simp

/-- Adding to the set preserves membership. -/
theorem mem_addSet_of_mem {c : Nat} (x : Nat) {l : List Nat} (h : c ∈ l) :
    c ∈ addSet x l := by
  rw [addSet]
  split
  · exact h
  · simp [h]

/-- Members of the initial set survive the teardown fold. -/
theorem mem_foldl_addSet_of_mem_init {c : Nat} :
    (l : List Nat) → (init : List Nat) → c ∈ init →
      c ∈ l.foldl (fun acc x => addSet x acc) init
  | [], _, h => h
  | x :: xs, init, h =>
    mem_foldl_addSet_of_mem_init xs (addSet x init) (mem_addSet_of_mem x h)

/-- Every drained queue element ends up in the teardown fold. -/
theorem mem_foldl_addSet_of_mem_list {c : Nat} :
    (l : List Nat) → (init : List Nat) → c ∈ l →
      c ∈ l.foldl (fun acc x => addSet x acc) init
  | x :: xs, init, h => by
    rcases List.mem_cons.mp h with h1 | h1
    · subst h1
      exact mem_foldl_addSet_of_mem_init xs _ (mem_addSet_self c init)
    · exact mem_foldl_addSet_of_mem_list xs _ h1

/-- `drainLoop` pops the maximal all-closed prefix (closing each one, in
order) and stops at the first open connection, returning the queue
remainder; it returns no connection when the whole queue is closed. -/
theorem drainLoop_eq (env : DriverEnv) :
    (l : List Nat) →
      drainLoop env l =
        (match l.dropWhile (fun c => !env.isOpen c) with
         | [] => (none, [], l.takeWhile (fun c => !env.isOpen c))
         | c :: rest => (some c, rest, l.takeWhile (fun c => !env.isOpen c)))
  | [] => rfl
  | c :: rest => by
    rcases hopen : env.isOpen c with _ | _
    · rw [drainLoop, if_neg (by simp [hopen]), drainLoop_eq env rest,
        List.dropWhile_cons, List.takeWhile_cons]
      simp only [hopen, Bool.not_false, if_true, eq_self_iff_true]
      rcases List.dropWhile (fun c => !env.isOpen c) rest with _ | ⟨d, ds⟩
      · rfl
      · rfl
    · rw [drainLoop, if_pos (by simp [hopen]), List.dropWhile_cons, List.takeWhile_cons]
      simp [hopen]

/-- The element at which `dropWhile` stops falsifies the predicate. -/
theorem dropWhile_head_false {p : Nat → Bool} :
    (l : List Nat) → ∀ {c : Nat} {rest : List Nat},
      l.dropWhile p = c :: rest → p c = false
  | [], _, _, h => nomatch h
  | x :: xs, c, rest, h => by
    rw [List.dropWhile_cons] at h
    by_cases hp : p x = true
    · exact dropWhile_head_false xs (by rwa [if_pos hp] at h)
    · have hp2 : p x = false := by simpa using hp
      rw [if_neg (by simp [hp2])] at h
      cases h
      exact hp2

/-- C1: `acquire` (`get_conn`) pops connections from the free list one
at a time, closing (close errors ignored) each popped connection that is
not alive and retrying with the next; when the free list is exhausted it
opens a new connection from the current configuration; the returned
connection is registered as outstanding; and with no configuration it
fails with the configuration error without touching the free list or
opening a connection. -/
theorem get_conn_spec (env : DriverEnv) (s : PoolState) :
    (PoolState.get_conn { s with config := none } env =
      (.error .configurationError, { s with config := none })) ∧
    (∀ cfg : Nat,
      (∀ c, c ∈ s.queue.takeWhile (fun c => !env.isOpen c) → env.isOpen c = false) ∧
      (match s.queue.dropWhile (fun c => !env.isOpen c) with
       | c :: rest =>
         PoolState.get_conn { s with config := some cfg } env =
           (.ok c,
             { s with
               config := some cfg
               queue := rest
               outstanding := addSet c s.outstanding
               closes := s.closes ++ s.queue.takeWhile (fun c => !env.isOpen c) }) ∧
         env.isOpen c = true ∧ c ∈ addSet c s.outstanding
       | [] =>
         PoolState.get_conn { s with config := some cfg } env =
           (.ok s.nextConn,
             { s with
               config := some cfg
               queue := []
               nextConn := s.nextConn + 1
               outstanding := addSet s.nextConn s.outstanding
               closes := s.closes ++ s.queue.takeWhile (fun c => !env.isOpen c) }) ∧
         s.nextConn ∈ addSet s.nextConn s.outstanding)) := by
  constructor
  · rfl
  · intro cfg
    constructor
    · intro c hc
      have := List.mem_takeWhile_imp hc
      simpa using this
    · have hd := drainLoop_eq env s.queue
      rcases hsplit : List.dropWhile (fun c => !env.isOpen c) s.queue with _ | ⟨c, rest⟩
      · rw [hsplit] at hd
        refine ⟨?_, mem_addSet_self _ _⟩
        simp only [PoolState.get_conn]
        rw [hd]
      · rw [hsplit] at hd
        have hopen : env.isOpen c = true := by
          have := dropWhile_head_false s.queue hsplit
          simpa using this
        refine ⟨?_, hopen, mem_addSet_self _ _⟩
        simp only [PoolState.get_conn]
        rw [hd]

/-- C1 witness: a pool whose free list starts with the dead connection
1 followed by the open connections 4 and 6 hands out 4, closes 1, and
registers 4 as outstanding. -/
theorem get_conn_spec_witness :
    DriverEnv.isOpen ⟨fun c => decide (2 ≤ c)⟩ 1 = false ∧
    PoolState.get_conn ⟨some 0, [1, 4, 6], [], 10, []⟩ ⟨fun c => decide (2 ≤ c)⟩ =
      (.ok 4, ⟨some 0, [6], [4], 10, [1]⟩) := by
  have h := (get_conn_spec ⟨fun c => decide (2 ≤ c)⟩ ⟨some 0, [1, 4, 6], [], 10, []⟩).2 0
  exact ⟨h.1 1 (by decide), h.2.1⟩

/-- C2 counterexample: teardown does not empty the outstanding
registry — the source closes the registered connections but never
removes them from the weak set, so a pool with outstanding connection 5
still has a non-empty registry after teardown completes. -/
theorem teardown_registry_not_emptied :
    (PoolState.teardown ⟨none, [], [5], 0, []⟩).outstanding ≠ [] := by decide

/-- C2 (amended): teardown empties the free list and invokes `close` at
least once on every connection found in the free list or the outstanding
registry (per-connection close failures are swallowed); the outstanding
registry, however, retains its entries (they disappear only via
weak-reference collection, not via teardown).  A second teardown leaves
the free list and the registry exactly as the first left them — its only
effect is to invoke `close` on the registered connections again. -/
theorem teardown_spec (s : PoolState) :
    (s.teardown).queue = [] ∧
    (s.teardown).closes = s.closes ++ (s.teardown).outstanding ∧
    (∀ c, c ∈ s.queue → c ∈ (s.teardown).outstanding) ∧
    (∀ c, c ∈ s.outstanding → c ∈ (s.teardown).outstanding) ∧
    (s.teardown).teardown =
      { s.teardown with closes := (s.teardown).closes ++ (s.teardown).outstanding } := by
  refine ⟨rfl, rfl, ?_, ?_, rfl⟩
  · intro c hc
    exact mem_foldl_addSet_of_mem_list _ _ hc
  · intro c hc
    exact mem_foldl_addSet_of_mem_init _ _ hc

/-- C2 witness: in a pool with free list `[3, 4]` and outstanding
registry `[4, 5]`, teardown closes 3 (from the free list) and 5 (still
checked out) — both end up in the post-teardown registry, whose members
are exactly the connections whose close log grows. -/
theorem teardown_spec_witness :
    3 ∈ (PoolState.teardown ⟨some 1, [3, 4], [4, 5], 9, []⟩).outstanding ∧
    5 ∈ (PoolState.teardown ⟨some 1, [3, 4], [4, 5], 9, []⟩).outstanding :=
  ⟨(teardown_spec ⟨some 1, [3, 4], [4, 5], 9, []⟩).2.2.1 3 (by decide),
   (teardown_spec ⟨some 1, [3, 4], [4, 5], 9, []⟩).2.2.2.1 5 (by decide)⟩

/-- C9: starting from a pool with an empty free list, `acquire` opens a
fresh connection; releasing it and acquiring again returns the very same
connection object, with no new connection opened (the fresh-id supply
does not advance) and no connection closed. -/
theorem pool_reuse (env : DriverEnv) (s : PoolState) (cfg : Nat)
    (hcfg : s.config = some cfg) (hq : s.queue = [])
    (halive : env.isOpen s.nextConn = true) :
    ∃ s1 s2 s3 : PoolState,
      s.get_conn env = (.ok s.nextConn, s1) ∧
      s1.put_conn s.nextConn = (.ok (), s2) ∧
      s2.get_conn env = (.ok s.nextConn, s3) ∧
      s3.nextConn = s1.nextConn ∧
      s3.closes = s2.closes ∧
      s2.queue = [s.nextConn] ∧ s3.queue = [] := by
  obtain ⟨c0, q0, out0, n0, cl0⟩ := s
  change c0 = some cfg at hcfg
  change q0 = [] at hq
  change env.isOpen n0 = true at halive
  subst hcfg hq
  refine ⟨⟨some cfg, [], addSet n0 out0, n0 + 1, cl0 ++ []⟩,
    ⟨some cfg, [] ++ [n0], (addSet n0 out0).erase n0, n0 + 1, cl0 ++ []⟩,
    ⟨some cfg, [], addSet n0 ((addSet n0 out0).erase n0), n0 + 1, (cl0 ++ []) ++ []⟩,
    rfl, ?_, ?_, rfl, by simp, rfl, rfl⟩
  · rw [PoolState.put_conn, if_pos (mem_addSet_self n0 out0)]
  · simp only [PoolState.get_conn, List.nil_append, drainLoop, halive, if_true]

/-- C9 witness: on a fresh configured pool, acquire hands out connection
7, and after releasing it the next acquire hands out 7 again. -/
theorem pool_reuse_witness :
    (PoolState.get_conn ⟨some 0, [], [], 7, []⟩ ⟨fun _ => true⟩).1 = .ok 7 ∧
    (PoolState.get_conn
      (PoolState.put_conn
        (PoolState.get_conn ⟨some 0, [], [], 7, []⟩ ⟨fun _ => true⟩).2 7).2
      ⟨fun _ => true⟩).1 = .ok 7 := by
  obtain ⟨s1, s2, s3, h1, h2, h3, -, -, -, -⟩ :=
    pool_reuse ⟨fun _ => true⟩ ⟨some 0, [], [], 7, []⟩ 0 rfl rfl rfl
  constructor
  · rw [h1]
  · simp only [h1, h2, h3]

/-! ## Query descriptors and the query builder (`resync/queryset.py`,
`resync/connection.py`) -/

/-- An argument of one query operation: a plain mapping (a `filter`
dictionary), a row predicate built by `_build_filter_query`, an
ordering key (`r.asc`/`r.desc` applied to a field name), a number
(`limit`), a record payload, or a boolean flag. -/
inductive QueryArg where
  | mapping (m : List (String × JValue))
  | cmpRow (field : String) (comparator : String) (value : JValue)
  | ordAsc (field : String)
  | ordDesc (field : String)
  | num (n : Nat)
  | payload (r : Record)
  | flag (b : Bool)

/-- `DatabaseQuery` from `resync/connection.py`: one operation of a
query descriptor, the triple `(verb, positional args, keyword args)`. -/
structure DatabaseQuery where
  verb : String
  args : List QueryArg
  kwargs : List (String × QueryArg)

/-- The class of a queryset object (`filter`/`limit` return
`self.__class__`, `order_by` returns `OrderedQueryset`, `changes`
returns `AsyncChangeFeed`). -/
inductive QsClass where
  | queryset
  | ordered
  | changefeed
deriving DecidableEq, Repr

/-- A queryset: its class, the model's table name (the only part of the
model the query pipeline reads when building queries), and the
descriptor — an ordered sequence of operations. -/
structure Queryset where
  cls : QsClass
  model : String
  queries : List DatabaseQuery

/-- `ALLOWED_COMPARATORS` from `resync/queryset.py`. -/
def ALLOWED_COMPARATORS : List String := ["eq", "ne", "gt", "lt", "ge", "le"]

/-- Errors raised while building filter operations: the `ValueError`
for a key with more than one `__` separator and the `KeyError` from
`_build_filter_query` for an unknown comparator. -/
inductive FilterError where
  | valueError (key : String)
  | keyError (comparator : String)
deriving DecidableEq, Repr

/-- Left-to-right non-overlapping split of a character list at each
`'_','_'` pair, accumulating the current fragment. -/
def dunderSplitAux : List Char → List Char → List (List Char)
  | [], acc => [acc.reverse]
  | '_' :: '_' :: rest, acc => acc.reverse :: dunderSplitAux rest []
  | c :: rest, acc => dunderSplitAux rest (c :: acc)

/-- Python's `key.split('__')` as used by `Queryset.filter`, written as
a structural recursion so it evaluates by kernel reduction. -/
def splitOnDunder (key : String) : List String :=
  (dunderSplitAux key.toList []).map (fun cs => String.mk cs)

/-- One iteration of the loop in `Queryset.filter`: split the key on
`__`; one part gives a `{key: value}` mapping, two parts give a
comparison predicate via `_build_filter_query` (whose comparator must be
allowed), more parts raise `ValueError`. -/
def buildFilterOp (key : String) (value : JValue) : Except FilterError DatabaseQuery :=
  match splitOnDunder key with
  | [_] => .ok ⟨"filter", [.mapping [(key, value)]], []⟩
  | [field, comparator] =>
    if comparator ∈ ALLOWED_COMPARATORS then
      .ok ⟨"filter", [.cmpRow field comparator value], []⟩
    else
      .error (.keyError comparator)
  | _ => .error (.valueError key)

/-- The loop of `Queryset.filter` over its keyword arguments, in
iteration order, stopping at the first error. -/
def filterOps : List (String × JValue) → Except FilterError (List DatabaseQuery)
  | [] => .ok []
  | (key, value) :: rest =>
    match buildFilterOp key value with
    | .error e => .error e
    | .ok op =>
      match filterOps rest with
      | .error e => .error e
      | .ok ops => .ok (op :: ops)

/-- `Queryset.filter`: returns `self.__class__(self.model, self.queries
+ tuple(extra_queries))` — a new descriptor with the filter operations
appended; `self` is not modified (the embedding is pure: the source
never assigns to `self.queries` in any chaining method). -/
def Queryset.filter (q : Queryset) (filter_kwargs : List (String × JValue)) :
    Except FilterError Queryset :=
  match filterOps filter_kwargs with
  | .error e => .error e
  | .ok ops => .ok ⟨q.cls, q.model, q.queries ++ ops⟩

/-- The ordering argument of `Queryset.order_by`: a leading `-` selects
descending order on the remainder of the field name. -/
def orderArgOf (field_name : String) : QueryArg :=
  if field_name.startsWith "-" then .ordDesc (field_name.drop 1)
  else .ordAsc field_name

/-- `Queryset.order_by`: appends one `order_by` operation and returns a
new `OrderedQueryset`. -/
def Queryset.order_by (q : Queryset) (field_name : String) : Queryset :=
  ⟨.ordered, q.model, q.queries ++ [⟨"order_by", [orderArgOf field_name], []⟩]⟩

/-- `Queryset.limit`: appends one `limit` operation and returns a new
object of the same class. -/
def Queryset.limit (q : Queryset) (num : Nat) : Queryset :=
  ⟨q.cls, q.model, q.queries ++ [⟨"limit", [.num num], []⟩]⟩

/-- `Queryset.changes`: appends one `changes` operation and returns a
new `AsyncChangeFeed`. -/
def Queryset.changes (q : Queryset) : Queryset :=
  ⟨.changefeed, q.model, q.queries ++ [⟨"changes", [], []⟩]⟩

/-- Modelled from the spec: the downstream driver's query-builder
surface keyed by verb name (§6 lists `filter`, `order_by`, `limit`,
`insert`, `update`, `changes`, …); `getattr` on any other name raises
`AttributeError` — the spec's `UnknownVerbError`. -/
def QUERY_BUILDER_VERBS : List String :=
  ["filter", "order_by", "limit", "insert", "update", "changes", "get_all",
   "count", "pluck", "between", "delete"]

/-- The failure of `_build_query`: the `AttributeError` raised by
`getattr(final_query, query_type)` for a verb with no implementation on
the query-builder surface (the spec's `UnknownVerbError`). -/
inductive BuildError where
  | unknownVerbError (verb : String)
deriving DecidableEq, Repr

/-- A built driver query object: `r.table(table)` with the operations
applied in order. -/
structure ReqlQuery where
  table : String
  ops : List DatabaseQuery

/-- The fold of `_build_query`: apply each operation's verb to the query
object built so far; an unimplemented verb raises. -/
def buildChain (acc : ReqlQuery) : List DatabaseQuery → Except BuildError ReqlQuery
  | [] => .ok acc
  | op :: rest =>
    if op.verb ∈ QUERY_BUILDER_VERBS then
      buildChain ⟨acc.table, acc.ops ++ [op]⟩ rest
    else
      .error (.unknownVerbError op.verb)

/-- `_build_query` from `resync/queryset.py` (`BaseQueryset`) and
`resync/connection.py` (`QueryRunner`) — both bodies are identical:
start from `r.table(table)` and fold the descriptor over it. -/
def _build_query (table : String) (queries : List DatabaseQuery) : Except BuildError ReqlQuery :=
  buildChain ⟨table, []⟩ queries

/-- A descriptor containing an unimplemented verb makes the build fold
fail with the unknown-verb error, whatever has been folded so far. -/
theorem buildChain_unknown_verb {op : DatabaseQuery}
    (hv : op.verb ∉ QUERY_BUILDER_VERBS) :
    (queries : List DatabaseQuery) → (acc : ReqlQuery) → op ∈ queries →
      ∃ v, v ∉ QUERY_BUILDER_VERBS ∧
        buildChain acc queries = .error (.unknownVerbError v)
  | q :: rest, acc, hmem => by
    rw [buildChain]
    by_cases hq : q.verb ∈ QUERY_BUILDER_VERBS
    · rw [if_pos hq]
      rcases List.mem_cons.mp hmem with h1 | h1
      · subst h1; exact absurd hq hv
      · exact buildChain_unknown_verb hv rest _ h1
    · rw [if_neg hq]
      exact ⟨q.verb, hq, rfl⟩

/-- C6: for every query descriptor containing an operation whose verb
name has no corresponding implementation on the query-builder surface,
`_build_query` fails with the unknown-verb error (the `AttributeError`
from `getattr`, the spec's `UnknownVerbError`). -/
theorem build_query_unknown_verb (table : String) (queries : List DatabaseQuery)
    (op : DatabaseQuery) (hmem : op ∈ queries)
    (hv : op.verb ∉ QUERY_BUILDER_VERBS) :
    ∃ v, v ∉ QUERY_BUILDER_VERBS ∧
      _build_query table queries = .error (.unknownVerbError v) :=
  buildChain_unknown_verb hv queries ⟨table, []⟩ hmem

/-- C6 witness: a descriptor with the unimplemented verb `frobnicate`
fails to build. -/
theorem build_query_unknown_verb_witness :
    _build_query "hardware" [⟨"frobnicate", [], []⟩] =
      .error (.unknownVerbError "frobnicate") := by
  obtain ⟨v, -, heq⟩ :=
    build_query_unknown_verb "hardware" [⟨"frobnicate", [], []⟩]
      ⟨"frobnicate", [], []⟩ (List.Mem.head _) (by decide)
  have hv : Except.error (ε := BuildError) (α := ReqlQuery)
      (.unknownVerbError v) = .error (.unknownVerbError "frobnicate") :=
    heq.symm.trans rfl
  cases hv
  exact heq

/-- C7: every chaining method (`filter`, `order_by`, `limit`,
`changes`) returns a new descriptor whose operation sequence is the
original's with operations appended; the original descriptor is a value
the methods only read (none of them assigns to `self.queries`), so
chaining twice from the same base yields two equal, independent
descriptors sharing the base's prefix — witnessed here by the chain
`filter` then `order_by` being uniquely determined by the base. -/
theorem queryset_chaining_appends (q : Queryset) (kwargs : List (String × JValue))
    (ops : List DatabaseQuery) (hops : filterOps kwargs = .ok ops)
    (field_name : String) (num : Nat) :
    q.filter kwargs = .ok ⟨q.cls, q.model, q.queries ++ ops⟩ ∧
    q.order_by field_name =
      ⟨.ordered, q.model, q.queries ++ [⟨"order_by", [orderArgOf field_name], []⟩]⟩ ∧
    q.limit num = ⟨q.cls, q.model, q.queries ++ [⟨"limit", [.num num], []⟩]⟩ ∧
    q.changes = ⟨.changefeed, q.model, q.queries ++ [⟨"changes", [], []⟩]⟩ ∧
    (q.filter kwargs).map (fun d => d.order_by field_name) =
      .ok ⟨.ordered, q.model,
        (q.queries ++ ops) ++ [⟨"order_by", [orderArgOf field_name], []⟩]⟩ := by
  refine ⟨?_, rfl, rfl, rfl, ?_⟩
  · rw [Queryset.filter, hops]
  · rw [Queryset.filter, hops]
    rfl

/-- C7 witness: chaining `.filter(x=1).order_by("y")` on a concrete base
descriptor appends exactly the two operations. -/
theorem queryset_chaining_appends_witness :
    (Queryset.filter ⟨.queryset, "hardware", [⟨"limit", [.num 3], []⟩]⟩
        [("x", .int 1)]).map (fun d => d.order_by "y") =
      .ok ⟨.ordered, "hardware",
        ([⟨"limit", [.num 3], []⟩] ++ [⟨"filter", [.mapping [("x", .int 1)], ], []⟩]) ++
          [⟨"order_by", [orderArgOf "y"], []⟩]⟩ :=
  (queryset_chaining_appends ⟨.queryset, "hardware", [⟨"limit", [.num 3], []⟩]⟩
    [("x", .int 1)] [⟨"filter", [.mapping [("x", .int 1)]], []⟩] rfl "y" 0).2.2.2.2

/-! ## `Queryset.get` (`resync/queryset.py`) -/

/-- Errors that can escape `Queryset.get`: a failure while building the
(discarded) filter descriptor, the pool's configuration assert, an
unknown verb while building the executed query, `DoesNotExist`,
`TooManyResults` (carrying the descriptor, as in the source), and the
pool's `KeyError`. -/
inductive GetError where
  | filterError (e : FilterError)
  | configurationError
  | unknownVerbError (verb : String)
  | doesNotExist
  | tooManyResults (queries : List DatabaseQuery)
  | keyError

/-- `Queryset.get`: when kwargs are given, `self.filter(**kwargs)` is
evaluated — and its result discarded (the source never rebinds it) — so
any error it raises propagates but a successful filter has no effect;
the query that then runs inside the `RethinkConnection` block is built
from `self.queries` alone.  The database is the oracle `db`, mapping a
built query to its result rows; the cursor protocol raises
`DoesNotExist` on an empty result and `TooManyResults` when a second
`fetch_next` succeeds.  On the error paths inside the block the acquired
connection is not returned to the pool (the source's `__aexit__` calls
`self._conn.close()` without awaiting it, so no close is recorded
either); on success `put_conn` returns it.  `from_db` is the
record-mapping layer's transform applied to the fetched row. -/
def Queryset.get {α : Type} (env : DriverEnv) (db : ReqlQuery → List Record)
    (from_db : Record → α) (q : Queryset) (kwargs : List (String × JValue))
    (s : PoolState) : Except GetError α × PoolState :=
  match (if kwargs.isEmpty then .ok q else q.filter kwargs : Except FilterError Queryset) with
  | .error e => (.error (.filterError e), s)
  | .ok _ =>
    match s.get_conn env with
    | (.error _, s1) => (.error .configurationError, s1)
    | (.ok conn, s1) =>
      match _build_query q.model q.queries with
      | .error (.unknownVerbError v) => (.error (.unknownVerbError v), s1)
      | .ok query =>
        match db query with
        | [] => (.error .doesNotExist, s1)
        | [value] =>
          match s1.put_conn conn with
          | (.ok _, s2) => (.ok (from_db value), s2)
          | (.error _, s2) => (.error .keyError, s2)
        | _ => (.error (.tooManyResults q.queries), s1)

/-- C10 (amended): for every queryset and every non-empty set of keyword
arguments from which the filter descriptor can be built, `get` behaves
exactly as it does with no keyword arguments at all: the filtered
descriptor is constructed and discarded, so the kwargs never restrict
which records are fetched or counted toward the too-many-results check.
(When the filter descriptor cannot be built — an invalid key — the
construction error propagates and no query is executed at all, which is
the one way kwargs can change the outcome.) -/
theorem get_ignores_valid_kwargs {α : Type} (env : DriverEnv)
    (db : ReqlQuery → List Record) (from_db : Record → α) (q : Queryset)
    (kwargs : List (String × JValue)) (d : Queryset)
    (hne : kwargs ≠ []) (hok : q.filter kwargs = .ok d) (s : PoolState) :
    Queryset.get env db from_db q kwargs s = Queryset.get env db from_db q [] s := by
  rw [Queryset.get, Queryset.get, hok]
  have hempty : kwargs.isEmpty = false := by
    cases kwargs
    · exact absurd rfl hne
    · rfl
  rw [hempty]
  simp

/-- C10 witness: with valid kwargs `status=1` the outcome of `get` on a
one-row database equals the outcome with no kwargs. -/
theorem get_ignores_valid_kwargs_witness :
    Queryset.get ⟨fun _ => true⟩ (fun _ => [[("id", .int 1)]]) id
        ⟨.queryset, "hardware", []⟩ [("status", .int 1)] ⟨some 0, [], [], 0, []⟩ =
      Queryset.get ⟨fun _ => true⟩ (fun _ => [[("id", .int 1)]]) id
        ⟨.queryset, "hardware", []⟩ [] ⟨some 0, [], [], 0, []⟩ :=
  get_ignores_valid_kwargs ⟨fun _ => true⟩ (fun _ => [[("id", .int 1)]]) id
    ⟨.queryset, "hardware", []⟩ [("status", .int 1)]
    ⟨.queryset, "hardware", [⟨"filter", [.mapping [("status", .int 1)]], []⟩]⟩
    (fun h => nomatch h) rfl ⟨some 0, [], [], 0, []⟩

/-- C10 counterexample: the claim quantifies over every non-empty set of
keyword arguments, but for the invalid key `a__b__c` the construction of
the discarded filter descriptor raises `ValueError` before any query
runs, so `get` does not execute the query determined by the descriptor
(which, without kwargs, succeeds on this one-row database). -/
theorem get_invalid_kwargs_abort :
    (Queryset.get ⟨fun _ => true⟩ (fun _ => [[("id", .int 1)]]) id
        ⟨.queryset, "hardware", []⟩ [("a__b__c", .null)] ⟨some 0, [], [], 0, []⟩).1 =
      .error (.filterError (.valueError "a__b__c")) ∧
    (Queryset.get ⟨fun _ => true⟩ (fun _ => [[("id", .int 1)]]) id
        ⟨.queryset, "hardware", []⟩ [] ⟨some 0, [], [], 0, []⟩).1 =
      .ok [("id", .int 1)] ∧
    (Queryset.get ⟨fun _ => true⟩ (fun _ => [[("id", .int 1)]]) id
        ⟨.queryset, "hardware", []⟩ [("a__b__c", .null)] ⟨some 0, [], [], 0, []⟩).1 ≠
      (Queryset.get ⟨fun _ => true⟩ (fun _ => [[("id", .int 1)]]) id
        ⟨.queryset, "hardware", []⟩ [] ⟨some 0, [], [], 0, []⟩).1 :=
  ⟨rfl, rfl, fun h => nomatch h⟩

/-! ## Change-feed listener (`resync/listener.py`, `ChangeListener.listen`) -/

/-- How one subscription attempt of the scripted feed ends after
delivering its change events: a transient driver/runtime error
(`ReqlDriverError` / `ReqlRuntimeError`), a fatal query error
(`ReqlQueryLogicError`), or normal stream exhaustion
(`StopAsyncIteration`, which for a real change feed never happens but is
part of the cursor contract). -/
inductive AttemptEnd where
  | transientError
  | fatalError
  | stop
deriving DecidableEq, Repr

/-- The scripted environment of a listener run: the driver (connection
liveness), the script of each subscription attempt (the change events
delivered before the attempt ends, and how it ends), and the value of
`self.timeout.cancelled()` at each iteration of the `while` loop. -/
structure ListenEnv where
  driver : DriverEnv
  attempts : Nat → List Changeset × AttemptEnd
  cancelled : Nat → Bool

/-- How a listener run ends: clean shutdown after observing
cancellation, the `KeyboardInterrupt` raised on a fatal query error, a
pool error escaping the loop (not caught by the source's `except`
clauses), or fuel exhaustion (the loop still running). -/
inductive ListenOutcome where
  | cancelledShutdown
  | fatal
  | poolError
  | outOfFuel
deriving DecidableEq, Repr

/-- The observable outcome of a listener run: how it ended, every
`(record, diff)` pair passed to the callback in order, the number of
unit sleeps (`asyncio.sleep(1)`) performed, and the final pool state. -/
structure ListenResult (α : Type) where
  outcome : ListenOutcome
  callbacks : List (α × Diff)
  sleeps : Nat
  pool : PoolState

/-- `ChangeListener.listen`: while the timeout future is not cancelled,
build a fresh change feed (`self.queryset.changes()` — whose iteration
acquires a pool connection and subscribes), deliver each change event to
the callback transformed by `AsyncChangeFeed.transform_query_result`;
on `ReqlQueryLogicError` raise `KeyboardInterrupt` (terminating the loop
permanently); on `ReqlDriverError`/`ReqlRuntimeError` sleep one unit and
re-enter the loop.  Neither error handler returns the held connection to
the pool — `BaseQueryset.__anext__` only calls `put_conn` on normal
stream exhaustion — so on the error paths the loop proceeds with the
connection still outstanding.  `k` counts loop iterations (indexing the
cancellation signal and the attempt script); `fuel` bounds the unbounded
source loop so the recursion is total. -/
def ChangeListener.listen {α : Type} (env : ListenEnv) (from_db : Option Record → α)
    (s : PoolState) (k : Nat) : Nat → ListenResult α
  | 0 => ⟨.outOfFuel, [], 0, s⟩
  | fuel + 1 =>
    if env.cancelled k then ⟨.cancelledShutdown, [], 0, s⟩
    else
      match s.get_conn env.driver with
      | (.error _, s1) => ⟨.poolError, [], 0, s1⟩
      | (.ok conn, s1) =>
        let events := (env.attempts k).1
        let outs := events.map (AsyncChangeFeed.transform_query_result from_db)
        match (env.attempts k).2 with
        | .fatalError => ⟨.fatal, outs, 0, s1⟩
        | .transientError =>
          let rest := ChangeListener.listen env from_db s1 (k + 1) fuel
          ⟨rest.outcome, outs ++ rest.callbacks, rest.sleeps + 1, rest.pool⟩
        | .stop =>
          match s1.put_conn conn with
          | (.error _, s2) => ⟨.poolError, outs, 0, s2⟩
          | (.ok _, s2) =>
            let rest := ChangeListener.listen env from_db s2 (k + 1) fuel
            ⟨rest.outcome, outs ++ rest.callbacks, rest.sleeps, rest.pool⟩

/-- A connection successfully acquired is registered outstanding in the
resulting pool state. -/
theorem mem_outstanding_of_get_conn {s : PoolState} {env : DriverEnv}
    {conn : Nat} {s1 : PoolState} (h : s.get_conn env = (.ok conn, s1)) :
    conn ∈ s1.outstanding := by
  rw [PoolState.get_conn] at h
  rcases hc : s.config with _ | cfg
  · rw [hc] at h
    cases h
  · rw [hc] at h
    rcases hd : drainLoop env s.queue with ⟨found, q2, closed⟩
    rw [hd] at h
    rcases found with _ | c
    · cases h
      exact mem_addSet_self _ _
    · cases h
      exact mem_addSet_self _ _

/-- C5: if a subscription attempt raises the fatal query error
(`ReqlQueryLogicError`), the loop raises `KeyboardInterrupt` and
terminates permanently: the run's outcome is `fatal` regardless of the
remaining fuel and of any later attempt script, the callback receives
only the events delivered before the error, no backoff sleep happens,
and the listener never re-subscribes (the result does not mention any
attempt after `k`). -/
theorem listener_fatal {α : Type} (env : ListenEnv) (from_db : Option Record → α)
    (s : PoolState) (k fuel : Nat) (conn : Nat) (s1 : PoolState)
    (hc : env.cancelled k = false)
    (hend : (env.attempts k).2 = .fatalError)
    (hacq : s.get_conn env.driver = (.ok conn, s1)) :
    ChangeListener.listen env from_db s k (fuel + 1) =
      ⟨.fatal, (env.attempts k).1.map (AsyncChangeFeed.transform_query_result from_db),
       0, s1⟩ := by
  rw [ChangeListener.listen, if_neg (by simp [hc]), hacq]
  simp only [hend]

/-- C5 witness: a script whose first attempt ends with the fatal error
terminates the listener immediately with no callbacks and no sleeps. -/
theorem listener_fatal_witness :
    ChangeListener.listen
        ⟨⟨fun _ => true⟩, fun _ => ([], .fatalError), fun _ => false⟩
        (fun md => md) ⟨some 0, [], [], 0, []⟩ 0 3 =
      ⟨.fatal, [], 0, ⟨some 0, [], [0], 1, []⟩⟩ :=
  listener_fatal ⟨⟨fun _ => true⟩, fun _ => ([], .fatalError), fun _ => false⟩
    (fun md => md) ⟨some 0, [], [], 0, []⟩ 0 2 0 ⟨some 0, [], [0], 1, []⟩
    rfl rfl rfl

/-- A scripted environment for the transient-error claim: every attempt
delivers one deletion event and then fails with a transient error; the
timeout is cancelled from the second loop iteration on. -/
def listenTransientEnv : ListenEnv :=
  ⟨⟨fun _ => true⟩,
   fun _ => ([⟨some [("a", JValue.int 1)], none⟩], .transientError),
   fun k => decide (1 ≤ k)⟩

/-- C4 counterexample: after a transient error the listener does NOT
release the held connection back to the pool.  Starting from a fresh
configured pool, one attempt acquires connection 0 and fails
transiently; the listener sleeps one unit and re-enters, but the free
list stays empty and connection 0 is still in the outstanding registry
(neither error handler in `listen`, nor `BaseQueryset.__anext__` on the
exception path, calls `put_conn`). -/
theorem listener_transient_conn_not_released :
    (ChangeListener.listen listenTransientEnv (fun md => md)
        ⟨some 0, [], [], 0, []⟩ 0 2).sleeps = 1 ∧
    (ChangeListener.listen listenTransientEnv (fun md => md)
        ⟨some 0, [], [], 0, []⟩ 0 2).pool.queue = [] ∧
    0 ∈ (ChangeListener.listen listenTransientEnv (fun md => md)
        ⟨some 0, [], [], 0, []⟩ 0 2).pool.outstanding := by
  refine ⟨rfl, rfl, ?_⟩
  decide

/-- C4 (amended): on a transient database error the listener abandons
the connection it holds — the connection stays in the outstanding
registry and is not returned to the pool's free list — then waits a
fixed one-unit backoff and re-enters the running state, rebuilding the
feed subscription from scratch (the next iteration acquires a
connection anew); the error itself is never surfaced to the callback,
which receives exactly the transformed change events of each attempt. -/
theorem listener_transient {α : Type} (env : ListenEnv) (from_db : Option Record → α)
    (s : PoolState) (k fuel : Nat) (conn : Nat) (s1 : PoolState)
    (hc : env.cancelled k = false)
    (hend : (env.attempts k).2 = .transientError)
    (hacq : s.get_conn env.driver = (.ok conn, s1)) :
    ChangeListener.listen env from_db s k (fuel + 1) =
      ⟨(ChangeListener.listen env from_db s1 (k + 1) fuel).outcome,
       (env.attempts k).1.map (AsyncChangeFeed.transform_query_result from_db) ++
         (ChangeListener.listen env from_db s1 (k + 1) fuel).callbacks,
       (ChangeListener.listen env from_db s1 (k + 1) fuel).sleeps + 1,
       (ChangeListener.listen env from_db s1 (k + 1) fuel).pool⟩ ∧
    conn ∈ s1.outstanding := by
  constructor
  · rw [ChangeListener.listen, if_neg (by simp [hc]), hacq]
    simp only [hend]
  · exact mem_outstanding_of_get_conn hacq

/-- C4 witness: on the scripted environment above, the first loop
iteration delivers the deletion event to the callback, sleeps one unit,
and recurses on the post-acquisition pool state with connection 0 still
outstanding. -/
theorem listener_transient_witness :
    (ChangeListener.listen listenTransientEnv (fun md => md)
        ⟨some 0, [], [], 0, []⟩ 0 2).sleeps =
      (ChangeListener.listen listenTransientEnv (fun md => md)
        ⟨some 0, [], [0], 1, []⟩ 1 1).sleeps + 1 ∧
    0 ∈ PoolState.outstanding ⟨some 0, [], [0], 1, []⟩ := by
  have h := listener_transient listenTransientEnv (fun md => md)
    ⟨some 0, [], [], 0, []⟩ 0 1 0 ⟨some 0, [], [0], 1, []⟩ rfl rfl rfl
  exact ⟨by rw [h.1], h.2⟩
